import Mathlib

/-!
Verification of the rapidus runtime value model (`src/vm/value.rs`,
`src/vm/jsvalue/value.rs`, `src/vm/jsvalue/array.rs`) against its
natural-language specification.

The source has two coexisting value models:
* the older boxed model `Value` in `src/vm/value.rs` (embedded here as `Value`),
* the newer NaN-boxed model `Value2` in `src/vm/jsvalue/value.rs`
  (embedded here as `Value2`).

Machine doubles (`f64`) are embedded by the inductive `JsNum`: NaN, the two
infinities, negative zero, and finite values carried as exact rationals.  The
claims under verification depend on IEEE equality, NaN/zero/infinity special
cases, truncation, and the saturating `as i64`/`as usize` casts, all of which
are modelled exactly; they do not depend on rounding of arithmetic, so the
rational carrier is faithful for every operation embedded below.
-/

namespace Rapidus

/-- Abstraction of Rust `f64` for the operations the value model uses:
NaN, signed infinities, negative zero, and finite values as exact rationals
(positive and unsigned zero are `fin 0`). -/
inductive JsNum where
  | nan
  | posInf
  | negInf
  | negZero
  | fin (q : ℚ)
deriving DecidableEq

namespace JsNum

/-- Rust `f64::is_nan`. -/
def is_nan : JsNum → Bool
  | .nan => true
  | _ => false

/-- Rust `f64::is_infinite`. -/
def is_infinite : JsNum → Bool
  | .posInf => true
  | .negInf => true
  | _ => false

/-- The IEEE test `num == 0.0` (true for both signed zeros). -/
def is_zero : JsNum → Bool
  | .negZero => true
  | .fin q => decide (q = 0)
  | _ => false

/-- IEEE `==` on doubles: NaN is unequal to everything, `-0.0 == 0.0`. -/
def jeq : JsNum → JsNum → Bool
  | .nan, _ => false
  | _, .nan => false
  | .posInf, .posInf => true
  | .negInf, .negInf => true
  | .negZero, .negZero => true
  | .negZero, .fin q => decide (q = 0)
  | .fin q, .negZero => decide (q = 0)
  | .fin a, .fin b => decide (a = b)
  | _, _ => false

/-- The source's `is_integer(f) = (f - f.floor() == 0.0)`:
false on NaN (NaN-NaN is NaN) and infinities (inf-inf is NaN),
true on -0.0, and on finite values exactly when the rational is integral. -/
def is_integer : JsNum → Bool
  | .negZero => true
  | .fin q => decide (q.den = 1)
  | _ => false

/-- The IEEE comparison `n >= 0.0` (false on NaN, true on -0.0). -/
def ge_zero : JsNum → Bool
  | .nan => false
  | .posInf => true
  | .negInf => false
  | .negZero => true
  | .fin q => decide (0 ≤ q)

end JsNum

/-- Floor of a rational as an integer (`Int.fdiv` of numerator by denominator
is flooring division for the positive denominator).  Used instead of `⌊·⌋`
so that concrete values evaluate inside the kernel. -/
def ratFloorI (q : ℚ) : ℤ := q.num.fdiv q.den

/-- Absolute value of a rational, by cases (kernel-evaluable). -/
def ratAbs (q : ℚ) : ℚ := if q < 0 then -q else q

/-- Rust's saturating cast `n as usize` (64-bit): NaN to 0, truncation toward
zero, clamped into `[0, 2^64-1]`. -/
def JsNum.cast_usize : JsNum → Nat
  | .nan => 0
  | .posInf => 2 ^ 64 - 1
  | .negInf => 0
  | .negZero => 0
  | .fin q => if q < 0 then 0 else min (ratFloorI q).toNat (2 ^ 64 - 1)

/-- Rust's saturating cast `f64 as i64`, applied after truncation: values are
clamped into `[-2^63, 2^63-1]`. -/
def castI64 (t : ℤ) : ℤ :=
  if t > 2 ^ 63 - 1 then 2 ^ 63 - 1
  else if t < -2 ^ 63 then -2 ^ 63
  else t

/-- Embeds `Value::to_uint32` (src/vm/value.rs:490-510) after `to_number` has
been applied: NaN/zero/infinity give 0; otherwise the value is truncated toward
zero (`if num < 0.0 { -num.abs().floor() } else { num.abs().floor() }`), cast
with Rust's saturating `as i64`, reduced with Rust's `%` (truncated remainder,
`Int.tmod`) by 2^32, and 2^32 is added if the remainder is negative. -/
def uint32core (num : JsNum) : JsNum :=
  if num.is_nan || num.is_zero || num.is_infinite then .fin 0
  else
    match num with
    | .fin q =>
        let t : ℤ := if q < 0 then -(ratFloorI (ratAbs q)) else ratFloorI (ratAbs q)
        let m : ℤ := (castI64 t).tmod 4294967296
        if m < 0 then .fin ((4294967296 + m : ℤ) : ℚ) else .fin ((m : ℤ) : ℚ)
    | _ => .fin 0

/-! ### Decimal digit strings

Machinery for the decimal rendering of naturals (modelling how Rust's
`format!("{}", n)` prints integral doubles) and for the digit portion of
`str::parse::<f64>`. -/

/-- The decimal digit character for `d < 10`. -/
def dChar : Nat → Char
  | 0 => '0' | 1 => '1' | 2 => '2' | 3 => '3' | 4 => '4'
  | 5 => '5' | 6 => '6' | 7 => '7' | 8 => '8' | _ => '9'

/-- Little-endian decimal digits of `n`, with explicit fuel (any fuel ≥ the
digit count, in particular `n` itself, gives the digits). -/
def digitsRev : Nat → Nat → List Nat
  | 0, _ => []
  | f + 1, n => if n = 0 then [] else n % 10 :: digitsRev f (n / 10)

/-- Canonical decimal rendering of a natural number. -/
def natDecimal (n : Nat) : String :=
  if n = 0 then "0" else ⟨((digitsRev n n).reverse).map dChar⟩

/-- Whether `c` is an ASCII decimal digit. -/
def isDigitC (c : Char) : Bool := decide (48 ≤ c.toNat ∧ c.toNat ≤ 57)

/-- Numeric value of an ASCII digit character. -/
def digVal (c : Char) : Nat := c.toNat - 48

/-- Value of a most-significant-first digit-character list. -/
def digitsVal (cs : List Char) : Nat := cs.foldl (fun a c => a * 10 + digVal c) 0

/-- ASCII lowercasing (for the case-insensitive `inf`/`nan` keywords of
Rust's float grammar). -/
def lowerAscii (c : Char) : Char :=
  if 65 ≤ c.toNat ∧ c.toNat ≤ 90 then Char.ofNat (c.toNat + 32) else c

/-- Strip one optional leading sign, returning (is-negative, rest). -/
def parseSign : List Char → Bool × List Char
  | '+' :: t => (false, t)
  | '-' :: t => (true, t)
  | t => (false, t)

/-- Pack a parsed magnitude and sign into a `JsNum`, giving `-0.0` for a
negative zero literal.  The nearest-double rounding (and overflow to infinity)
of `str::parse::<f64>` is abstracted: the exact rational is kept. -/
def mkF64 (neg : Bool) (v : ℚ) : JsNum :=
  if v = 0 then (if neg then .negZero else .fin 0)
  else .fin (if neg then -v else v)

/-- The exact rational value of the literal `mant * 10^(±e)` where `mant`
is the mantissa digits' value scaled by `10^flen` (`flen` fraction digits). -/
def litVal (mn flen : ℕ) (eneg : Bool) (e : ℕ) : ℚ :=
  if eneg then Rat.divInt mn (10 ^ (flen + e)) else Rat.divInt (mn * 10 ^ e) (10 ^ flen)

/-- Exponent suffix of Rust's float grammar: optional sign, then a nonempty
digit run ending the string. -/
def parseExp (neg : Bool) (mn flen : ℕ) (t : List Char) : Option JsNum :=
  let se := parseSign t
  let ed := se.2.takeWhile isDigitC
  let r3 := se.2.dropWhile isDigitC
  if ed.isEmpty || !r3.isEmpty then none
  else some (mkF64 neg (litVal mn flen se.1 (digitsVal ed)))

/-- Model of Rust `str::parse::<f64>` (the grammar of `f64::from_str`):
optional sign; `inf`/`infinity`/`nan` case-insensitively; otherwise
`digits [. digits] [(e|E) [sign] digits]` with at least one mantissa digit
and nothing left over.  Values are kept as exact rationals (see `mkF64`). -/
def parseF64 (s : String) : Option JsNum :=
  let sc := parseSign s.toList
  let neg := sc.1
  let cs := sc.2
  let l := cs.map lowerAscii
  if l = ['i', 'n', 'f'] ∨ l = ['i', 'n', 'f', 'i', 'n', 'i', 't', 'y'] then
    some (if neg then .negInf else .posInf)
  else if l = ['n', 'a', 'n'] then some .nan
  else
    let ip := cs.takeWhile isDigitC
    let r1 := cs.dropWhile isDigitC
    let fr : List Char × List Char :=
      match r1 with
      | '.' :: t => (t.takeWhile isDigitC, t.dropWhile isDigitC)
      | _ => ([], r1)
    if ip.isEmpty && fr.1.isEmpty then none
    else
      let mn := digitsVal ip * 10 ^ fr.1.length + digitsVal fr.1
      match fr.2 with
      | [] => some (mkF64 neg (litVal mn fr.1.length false 0))
      | 'e' :: t => parseExp neg mn fr.1.length t
      | 'E' :: t => parseExp neg mn fr.1.length t
      | _ => none

/-- Rust `char::is_whitespace` (the Unicode White_Space code points). -/
def rustIsWhitespace (c : Char) : Bool :=
  [9, 10, 11, 12, 13, 32, 133, 160, 5760, 8192, 8193, 8194, 8195, 8196, 8197,
    8198, 8199, 8200, 8201, 8202, 8232, 8233, 8239, 8287, 12288].contains c.toNat

/-- The `str_to_num` helper of `Value::to_number` (src/vm/value.rs:454-465):
a string of only whitespace (including the empty string) is 0; otherwise the
string is parsed as a float literal, with NaN on failure. -/
def str_to_num (s : String) : JsNum :=
  if s.toList.all rustIsWhitespace then .fin 0
  else
    match parseF64 s with
    | some n => n
    | none => .nan

/-- Rendering of doubles in `Value::to_string` (src/vm/value.rs:423-439):
NaN first, then the `== 0.0` test (collapsing `-0.0` to `"0"`), then
infinities — the source returns `"Infinity"` regardless of sign — and
otherwise Rust's `format!("{}", n)`.  Rust prints integral doubles as plain
decimal integers, which is modelled exactly; its shortest-round-trip rendering
of non-integral doubles is abstracted by an explicit fraction rendering, on
which no theorem below depends. -/
def numToString (n : JsNum) : String :=
  if n.is_nan then "NaN"
  else if n.is_zero then "0"
  else if n.is_infinite then "Infinity"
  else
    match n with
    | .fin q =>
        if q.den = 1 then
          if q.num < 0 then "-" ++ natDecimal q.num.natAbs else natDecimal q.num.toNat
        else
          (if q.num < 0 then "-" else "") ++ natDecimal q.num.natAbs ++ "/" ++ natDecimal q.den
    | _ => ""

/-! ### The older boxed value model (`src/vm/value.rs`)

`Value` is a tagged union; `String(Box<CString>)` is embedded by its contents
(Rust's `PartialEq` on `Box<CString>` compares contents), while GC handles
(`PropMap = GcType<FxHashMap<…>>`, `GcType<ArrayValue>`) are embedded as
indices into explicit heaps carried by `RtCtx`.  A `Function` value holds its
`FuncId`, the handle of its property map, and the `this` slot of its
`CallObject` (the only `CallObject` field the embedded operations touch, via
`set_this`); the bytecode payload is never consulted by any embedded
operation and is omitted.  `BuiltinFunction` holds the identity of its
`BuiltinFuncInfo` (Rust compares the function pointers) and likewise its map
handle and `this` slot. -/

inductive Value where
  | Empty
  | Null
  | Undefined
  | Bool (b : Bool)
  | Number (n : JsNum)
  | String (s : String)
  | Function (id : Nat) (map : Nat) (cthis : Value)
  | BuiltinFunction (fid : Nat) (map : Nat) (cthis : Value)
  | Object (map : Nat)
  | Array (h : Nat)
  | Date (time : Nat) (map : Nat)
  | Arguments
deriving DecidableEq

/-- Embeds `Property` (src/vm/value.rs:22-28): a stored value plus flags. -/
structure Property where
  val : Value
  writable : Bool
  enumerable : Bool
  configurable : Bool
deriving DecidableEq

/-- Embeds `Property::new` (src/vm/value.rs:69-76): all flags default to true. -/
def Property.new (v : Value) : Property := ⟨v, true, true, true⟩

/-- A property map (`FxHashMap<String, Property>`), embedded as an
association list with unique keys; `get` finds the first binding. -/
abbrev PropMap := List (String × Property)

/-- Embeds `map.get(key)`. -/
def PropMap.get (m : PropMap) (key : String) : Option Property :=
  (List.find? (fun p => p.1 == key) m).map (·.2)

/-- Embeds `map.entry(key).or_insert(…); *refval = prop`: insert or overwrite. -/
def PropMap.upsert (m : PropMap) (key : String) (p : Property) : PropMap :=
  if (List.any m (fun q => q.1 == key)) then
    List.map (fun q => if q.1 == key then (key, p) else q) m
  else m ++ [(key, p)]

/-- Embeds `ArrayValue` (src/vm/value.rs:47-52): dense descriptor slots, a tracked
`length`, and the handle of the ordinary property map `obj`. -/
structure ArrayValue where
  elems : List Property
  length : Nat
  obj : Nat
deriving DecidableEq

/-- The ambient runtime state the embedded operations read: the two GC heaps
(property maps and array records), the thread-local `FUNCTION_PROTOTYPE` and
`NUMBER_PROTOTYPE` singletons (built by the builtins module, outside src/),
and the active call's argument store (`CallObject`, outside src/). -/
structure RtCtx where
  ph : List PropMap
  ah : List ArrayValue
  funcProto : Value
  numberProto : Value
  args : Option (List Value)

/-- Embeds `Value::to_number` (src/vm/value.rs:453-488).  The `fuel` argument models
Rust's unbounded recursion through array elements (a cyclic array overflows
the Rust stack; here it exhausts fuel, giving `none`).  `none` also embeds
the Rust panic of `ary.elems[0]` when `length == 1` with no backing slot, and
a dangling array handle.  All other paths are total. -/
def to_number (ctx : RtCtx) (fuel : Nat) (v : Value) : Option JsNum :=
  match v with
  | .Undefined => some .nan
  | .Bool false => some (.fin 0)
  | .Bool true => some (.fin 1)
  | .Number n => some n
  | .String s => some (str_to_num s)
  | .Array h =>
      match fuel with
      | 0 => none
      | fuel + 1 =>
          match ctx.ah[h]? with
          | none => none
          | some ary =>
              match ary.length with
              | 0 => some (.fin 0)
              | 1 =>
                  match ary.elems with
                  | [] => none
                  | p :: _ =>
                      match p.val with
                      | .Bool _ => some .nan
                      | w => to_number ctx fuel w
              | _ + 2 => some .nan
  | _ => some .nan

/-- Embeds `Value::to_uint32` (src/vm/value.rs:490-510): `to_number` then the
wraparound of `uint32core`. -/
def to_uint32 (ctx : RtCtx) (fuel : Nat) (v : Value) : Option JsNum :=
  (to_number ctx fuel v).map uint32core

/-- Embeds `trim_right_matches(",")`: strip every trailing comma. -/
def trimTrailingCommas (s : String) : String :=
  ⟨(s.data.reverse.dropWhile (fun c => c == ',')).reverse⟩

/-- Embeds `Value::to_string` (src/vm/value.rs:413-450) together with
`ArrayValue::to_string` (605-613): arrays render `elems[0..length]` by
folding each element's rendering followed by a comma and then stripping
trailing commas; a `length` exceeding the slot count makes the Rust slice
panic (`none` here), and recursion through elements is fuelled as in
`to_number`.  `Date` rendering calls chrono's `to_rfc3339` (outside src/)
and is abstracted by a fixed placeholder no theorem relies on. -/
def to_string (ctx : RtCtx) (fuel : Nat) (v : Value) : Option String :=
  match v with
  | .Undefined => some "undefined"
  | .Bool b => some (if b then "true" else "false")
  | .Number n => some (numToString n)
  | .String s => some s
  | .Array h =>
      match fuel with
      | 0 => none
      | fuel + 1 =>
          match ctx.ah[h]? with
          | none => none
          | some ary =>
              if ary.length ≤ ary.elems.length then
                ((ary.elems.take ary.length).mapM (fun p => to_string ctx fuel p.val)).map
                  (fun ss => trimTrailingCommas (String.join (ss.map (fun s => s ++ ","))))
              else none
  | .Object _ => some "[object Object]"
  | .Date _ _ => some "(date)"
  | .Function _ _ _ => some "[Function]"
  | .BuiltinFunction _ _ _ => some "[BuiltinFunc]"
  | .Null => some "null"
  | .Empty => some "empty"
  | .Arguments => some "NOT IMPLEMENTED"

/-- Embeds `Value::type_equal` (src/vm/value.rs:529-544).  Note the source's list
has no `(Date, Date)` arm, so two dates are *not* type-equal. -/
def type_equal : Value → Value → Bool
  | .Empty, .Empty => true
  | .Null, .Null => true
  | .Undefined, .Undefined => true
  | .Bool _, .Bool _ => true
  | .Number _, .Number _ => true
  | .String _, .String _ => true
  | .Object _, .Object _ => true
  | .Function _ _ _, .Function _ _ _ => true
  | .BuiltinFunction _ _ _, .BuiltinFunction _ _ _ => true
  | .Array _, .Array _ => true
  | .Arguments, .Arguments => true
  | _, _ => false

/-- Outcome of the equality comparisons of src/vm/value.rs, which return
`Result<bool, RuntimeError>` but also contain an `unreachable!()`:
`ok b` is `Ok(b)`, `err` is `Err(RuntimeError::Unimplemented)`, and
`panicked` is the `unreachable!()` panic. -/
inductive EqResult where
  | ok (b : Bool)
  | err
  | panicked
deriving DecidableEq

/-- Embeds `Value::strict_equal` (src/vm/value.rs:566-586): `(Empty, Empty)` is
`unreachable!()`; null/undefined are true against their own kind; numbers get
an explicit NaN check before IEEE equality; strings compare by contents;
objects and arrays by handle; functions by `(FuncId, PropMap)` pair; builtin
functions by `(BuiltinFuncInfo, PropMap)` pair; `(Arguments, Arguments)` is
`Err(Unimplemented)`; every mismatched pair falls to `Ok(false)`. -/
def strict_equal : Value → Value → EqResult
  | .Empty, .Empty => .panicked
  | .Null, .Null => .ok true
  | .Undefined, .Undefined => .ok true
  | .Bool l, .Bool r => .ok (l == r)
  | .Number l, .Number r =>
      if l.is_nan || r.is_nan then .ok false else .ok (l.jeq r)
  | .String l, .String r => .ok (l == r)
  | .Object l, .Object r => .ok (l == r)
  | .Function l1 l2 _, .Function r1 r2 _ => .ok (l1 == r1 && l2 == r2)
  | .BuiltinFunction l1 l2 _, .BuiltinFunction r1 r2 _ => .ok (l1 == r1 && l2 == r2)
  | .Array l, .Array r => .ok (l == r)
  | .Arguments, .Arguments => .err
  | _, _ => .ok false

/-- Weight used only to justify termination of `abstract_equal`: each
recursive call replaces a `Bool` operand by a `Number`. -/
def boolW : Value → Nat
  | .Bool _ => 1
  | _ => 0

/-- Embeds `Value::abstract_equal` (src/vm/value.rs:546-563): same runtime type
delegates to `strict_equal`; `(Number, String)` and `(String, Number)`
compare the number against `to_number` of the string (for a string operand,
`to_number` is exactly `str_to_num`); a `Bool` on either side is replaced by
`Number(to_number(bool))` and the comparison recursed (for the right-side
bool the operands are swapped, as in the source); everything else — including
the mixed `Null`/`Undefined` pair — falls to `Ok(false)`. -/
def abstract_equal : Value → Value → EqResult
  | a, b =>
    if type_equal a b then strict_equal a b
    else
      match a, b with
      | .Number l, .String s => .ok (l.jeq (str_to_num s))
      | .String s, .Number r => .ok ((str_to_num s).jeq r)
      | .Bool l, other => abstract_equal (.Number (if l then .fin 1 else .fin 0)) other
      | other, .Bool r => abstract_equal (.Number (if r then .fin 1 else .fin 0)) other
      | _, _ => .ok false
termination_by a b => boolW a + boolW b
decreasing_by all_goals simp [boolW]

/-- Embeds `set_this` (src/vm/value.rs:664-680): clone a (builtin) function value
with `callobj.this` replaced; all other values pass through unchanged. -/
def set_this (val this : Value) : Value :=
  match val with
  | .Function id m _ => .Function id m this
  | .BuiltinFunction fid m _ => .BuiltinFunction fid m this
  | v => v

/-- Embeds `obj_find_val` (src/vm/value.rs:634-658): look `key` up in the value's
own map, walking `__proto__` on a miss; builtin functions fall back to the
thread-local `FUNCTION_PROTOTYPE` (`ctx.funcProto`); primitives give
`Undefined`.  The returned `Nat` counts the lookups of `key` (one per map
consulted).  Fuel models the unbounded Rust recursion: a cyclic prototype
chain (or dangling handle) gives `none`. -/
def obj_find_val (ctx : RtCtx) : Nat → Value → String → Option (Value × Nat)
  | 0, _, _ => none
  | fuel + 1, val, key =>
      let core (mh : Nat) (isB : Bool) : Option (Value × Nat) :=
        match ctx.ph[mh]? with
        | none => none
        | some m =>
            match m.get key with
            | some p => some (p.val, 1)
            | none =>
                if isB && key == "__proto__" then some (ctx.funcProto, 1)
                else
                  match m.get "__proto__" with
                  | some p => (obj_find_val ctx fuel p.val key).map (fun r => (r.1, r.2 + 1))
                  | none =>
                      if isB then
                        (obj_find_val ctx fuel ctx.funcProto key).map (fun r => (r.1, r.2 + 1))
                      else some (.Undefined, 1)
      match val with
      | .BuiltinFunction _ m _ => core m true
      | .Function _ m _ => core m false
      | .Date _ m => core m false
      | .Object m => core m false
      | .Array h =>
          match ctx.ah[h]? with
          | some ary => core ary.obj false
          | none => none
      | _ => some (.Undefined, 0)

/-- Embeds `char::len_utf16` summed over the string's characters. -/
def utf16Len (s : String) : Nat :=
  s.data.foldl (fun n c => n + (if c.toNat < 65536 then 1 else 2)) 0

/-- The `property_of_string` closure of `Value::get_property`
(src/vm/value.rs:220-241): an integral number indexes `chars().nth(…)`
whose `unwrap()` panics (`none`) past the end; the key `"length"` gives the
UTF-16 code-unit count; anything else is `Undefined`. -/
def property_of_string (s : String) (property : Value) : Option Value :=
  match property with
  | .Number n =>
      if n.is_integer then (s.data[n.cast_usize]?).map (fun c => Value.String ⟨[c]⟩)
      else some .Undefined
  | .String key =>
      if key = "length" then some (.Number (.fin (utf16Len s))) else some .Undefined
  | _ => some .Undefined

/-- The `get_by_idx` closure inside `property_of_array`
(src/vm/value.rs:244-260): `Undefined` past `length`, otherwise the slot's
value with `Empty` read back as `Undefined`.  `none` embeds the Rust panics
(non-array receiver: `unreachable!()`; missing backing slot below `length`:
index out of bounds) and dangling handles. -/
def get_by_idx (ctx : RtCtx) (obj : Value) (n : Nat) : Option Value :=
  match obj with
  | .Array h =>
      match ctx.ah[h]? with
      | none => none
      | some ary =>
          if n ≥ ary.length then some .Undefined
          else
            match ary.elems[n]? with
            | none => none
            | some p => some (match p.val with | .Empty => .Undefined | v => v)
  | _ => none

/-- The `property_of_array` closure of `Value::get_property`
(src/vm/value.rs:243-283): a non-negative integral number takes the index
fast path; `"length"` reads the length field; any other string takes the
fast path only if it round-trips through `to_uint32` and `to_string`
(for a string `s`, `property.to_uint32()` is `uint32core (str_to_num s)`),
otherwise ordinary `obj_find_val` lookup with `set_this`; non-string,
non-number keys go to `obj_find_val` without `set_this`. -/
def property_of_array (ctx : RtCtx) (fuel : Nat) (obj selfv property : Value) : Option Value :=
  match property with
  | .Number n =>
      if n.is_integer && n.ge_zero then get_by_idx ctx obj n.cast_usize
      else (to_string ctx fuel property).bind
        (fun key => (obj_find_val ctx fuel obj key).map (fun r => r.1))
  | .String s =>
      if s = "length" then
        match obj with
        | .Array h => (ctx.ah[h]?).map (fun ary => Value.Number (.fin ary.length))
        | _ => none
      else if numToString (uint32core (str_to_num s)) = s then
        get_by_idx ctx obj (uint32core (str_to_num s)).cast_usize
      else (obj_find_val ctx fuel obj s).map (fun r => set_this r.1 selfv)
  | _ =>
      (to_string ctx fuel property).bind
        (fun key => (obj_find_val ctx fuel obj key).map (fun r => r.1))

/-- The `property_of_arguments` closure of `Value::get_property`
(src/vm/value.rs:285-303).  The argument store itself lives in
`CallObject` (src/vm/callobj.rs, not under src/); its positional read is
modelled from the spec (§4.3: integer key delegates to the argument store by
position, `"length"` is the argument count, anything else `Undefined`). -/
def property_of_arguments (ctx : RtCtx) (property : Value) : Value :=
  match property with
  | .Number n =>
      if n.is_integer && n.ge_zero then
        match ctx.args with
        | some as_ => (as_[n.cast_usize]?).getD .Undefined
        | none => .Undefined
      else .Undefined
  | .String s =>
      if s = "length" then
        .Number (.fin (((ctx.args).map List.length).getD 0))
      else .Undefined
  | _ => .Undefined

/-- Embeds `Value::get_property` (src/vm/value.rs:209-316): dispatch on the
receiver's runtime type; numbers look up on the thread-local Number
prototype with `this` rebound; objects/functions/dates use `obj_find_val`
on `property.to_string()` with `this` rebound; strings, arrays and
arguments use their closures; everything else is `Undefined`. -/
def get_property (ctx : RtCtx) (fuel : Nat) (self property : Value) : Option Value :=
  match self with
  | .Number _ =>
      (to_string ctx fuel property).bind
        (fun key => (obj_find_val ctx fuel ctx.numberProto key).map (fun r => set_this r.1 self))
  | .String s => property_of_string s property
  | .BuiltinFunction _ _ _ | .Function _ _ _ | .Date _ _ | .Object _ =>
      (to_string ctx fuel property).bind
        (fun key => (obj_find_val ctx fuel self key).map (fun r => set_this r.1 self))
  | .Array _ => property_of_array ctx fuel self self property
  | .Arguments => some (property_of_arguments ctx property)
  | _ => some .Undefined

/-- The `set_by_idx` helper of `Value::set_property`
(src/vm/value.rs:319-327): writing at `n ≥ length` first sets
`length = n + 1` and pads the slots with `Empty` up to `n + 1`, then
overwrites slot `n`; `none` embeds the Rust index panic of a state with
fewer slots than `length`. -/
def set_by_idx (ary : ArrayValue) (n : Nat) (val : Value) : Option ArrayValue :=
  let ary1 :=
    if n ≥ ary.length then
      { ary with
        length := n + 1,
        elems := ary.elems ++ List.replicate (n + 1 - ary.elems.length) (Property.new .Empty) }
    else ary
  if n < ary1.elems.length then
    some { ary1 with elems := ary1.elems.set n (Property.new val) }
  else none

/-- The `Value::Array` branch of `Value::set_property`
(src/vm/value.rs:339-369): a non-negative integral number writes through
`set_by_idx`; writing `"length"` to a non-negative integral number sets the
`length` field and pads the slots up to `n + 1` — it never truncates them —
and is a no-op for other values; a round-tripping index string writes
through `set_by_idx`; anything else upserts into the array's ordinary map
(returning the updated map heap). -/
def array_set_property (ctx : RtCtx) (fuel : Nat) (ary : ArrayValue) (property value : Value) :
    Option (ArrayValue × List PropMap) :=
  let fallbackWrite : Option (ArrayValue × List PropMap) :=
    (to_string ctx fuel property).bind fun key =>
      (ctx.ph[ary.obj]?).map fun m =>
        (ary, ctx.ph.set ary.obj (m.upsert key (Property.new value)))
  match property with
  | .Number n =>
      if n.is_integer && n.ge_zero then
        (set_by_idx ary n.cast_usize value).map (fun a => (a, ctx.ph))
      else fallbackWrite
  | .String s =>
      if s = "length" then
        match value with
        | .Number n =>
            if n.is_integer && n.ge_zero then
              let m := n.cast_usize
              some ({ ary with
                        length := m,
                        elems := ary.elems ++
                          List.replicate (m + 1 - ary.elems.length) (Property.new .Empty) },
                    ctx.ph)
            else some (ary, ctx.ph)
        | _ => some (ary, ctx.ph)
      else if numToString (uint32core (str_to_num s)) = s then
        (set_by_idx ary (uint32core (str_to_num s)).cast_usize value).map (fun a => (a, ctx.ph))
      else fallbackWrite
  | _ => fallbackWrite

/-! ### The newer NaN-boxed value model (`src/vm/jsvalue/value.rs`)

`Value2` carries raw pointers (`*mut CString`, `*mut ObjectInfo`); they are
embedded as indices into explicit heaps, and the derived `PartialEq`
(pointer equality) becomes index equality.  The `Other` payload is the `u32`
constant `UNINITIALIZED = 0 | EMPTY = 1 | NULL = 2 | UNDEFINED = 3`;
the `Bool` payload is the raw `u8`. -/

inductive Value2 where
  | Number (n : JsNum)
  | Bool (b : Nat)
  | String (h : Nat)
  | Object (h : Nat)
  | Other (k : Nat)
deriving DecidableEq

/-- The heap of interned `CString`s the `*mut CString` payloads point into. -/
abbrev StrHeap := List String

/-- Alias for the built-in booleans, usable inside the `Value2` namespace
where the bare name refers to the `Value2.Bool` constructor. -/
abbrev BoolT := Bool

namespace Value2

/-- Embeds `Value2::undefined()`. -/
def undefined : Value2 := .Other 3

/-- Embeds `Value2::null()`. -/
def null : Value2 := .Other 2

/-- Embeds `Value2::empty()` (the `EMPTY` sentinel). -/
def empty : Value2 := .Other 1

/-- Embeds `Value2::bool` (src/vm/jsvalue/value.rs:94-96). -/
def bool (x : BoolT) : Value2 := .Bool (if x then 1 else 0)

/-- Embeds `Value2::is_object` (src/vm/jsvalue/value.rs:209-214). -/
def is_object : Value2 → BoolT
  | .Object _ => true
  | _ => false

/-- Modelled from the spec: `Value2::is_undefined` (declared in
src/vm/jsvalue/object.rs's sibling modules, not under src/) — the test
against the `UNDEFINED` sentinel. -/
def is_undefined (v : Value2) : BoolT := v == undefined

/-- Modelled from the spec: `Value2::to_undefined_if_empty` (not under
src/) — public read paths convert the internal `Empty` marker to
`Undefined` (spec §3). -/
def to_undefined_if_empty (v : Value2) : Value2 := if v = empty then undefined else v

/-- Embeds `Value2::is_same_type_as` (src/vm/jsvalue/value.rs:491-503): the
`Other` arms compare against the four named sentinels only. -/
def is_same_type_as : Value2 → Value2 → BoolT
  | .Other 0, .Other 0 => true
  | .Other 1, .Other 1 => true
  | .Other 2, .Other 2 => true
  | .Other 3, .Other 3 => true
  | .Number _, .Number _ => true
  | .String _, .String _ => true
  | .Bool _, .Bool _ => true
  | .Object _, .Object _ => true
  | _, _ => false

/-- Embeds `Value2::strict_eq` (src/vm/jsvalue/value.rs:447-462): type mismatch is
false; then `self == undefined || self == null` is true; then numbers by
IEEE `==`, strings by dereferenced contents (the string heap `sh`; `none`
embeds a dangling pointer), bools by `into_bool`; *every other same-type
pair — including `Empty`/`Empty` and two identical object handles — falls
to `false`*. -/
def strict_eq (sh : StrHeap) (a b : Value2) : Option Value2 :=
  if !(a.is_same_type_as b) then some (bool false)
  else if a = undefined ∨ a = null then some (bool true)
  else
    match a, b with
    | .Number x, .Number y => some (bool (x.jeq y))
    | .String ha, .String hb =>
        (sh[ha]?).bind fun sa => (sh[hb]?).map fun sb => bool (sa == sb)
    | .Bool x, .Bool y => some (bool ((x == 1) == (y == 1)))
    | _, _ => some (bool false)

/-- Embeds `Value2::eq` (src/vm/jsvalue/value.rs:428-444), abstract equality: same
type delegates to `strict_eq`; the mixed `Null`/`Undefined` pairs are true;
the `(Number, Number)` arm of the final match is unreachable (same-type
pairs already returned); *every remaining mixed pair — including
Number/String and Bool pairs — yields `undefined`*. -/
def eq (sh : StrHeap) (a b : Value2) : Option Value2 :=
  if a.is_same_type_as b then strict_eq sh a b
  else
    match a, b with
    | .Other 2, .Other 3 => some (bool true)
    | .Other 3, .Other 2 => some (bool true)
    | _, _ =>
        match a, b with
        | .Number x, .Number y => some (.Bool (if x.jeq y then 1 else 0))
        | _, _ => some undefined

end Value2

/-- Modelled from the spec: `ObjectInfo` (src/vm/jsvalue/object.rs, not
under src/) — the heap object record, a kind tag plus a property map (spec
§3 Object Record).  `copy_object` clones the record wholesale, so only its
record identity matters below. -/
structure ObjectInfoM where
  kind : Nat
  property : List (String × Value2)
deriving DecidableEq

/-- Embeds `Value2::copy_object` (src/vm/jsvalue/value.rs:326-333): an `Object`
receiver is cloned through the allocator (modelled as appending the cloned
record, the fresh handle being the old heap size; `none` embeds a dangling
pointer); every other value is returned as-is with the heap untouched. -/
def copy_object (oh : List ObjectInfoM) (v : Value2) : Option (Value2 × List ObjectInfoM) :=
  match v with
  | .Object h => (oh[h]?).map (fun info => (Value2.Object oh.length, oh ++ [info]))
  | e => some (e, oh)

/-- Modelled from the spec: `Property2`/`DataProperty`/`AccessorProperty`
(src/vm/jsvalue/object.rs, not under src/) — a named slot is either a data
descriptor (stored value plus writable/enumerable/configurable flags) or an
accessor descriptor (getter/setter pair), never both (spec §3 Property
Descriptor). -/
inductive Property2 where
  | Data (val : Value2) (writable enumerable configurable : Bool)
  | Accessor (get set : Value2)
deriving DecidableEq

/-- Modelled from the spec: `Property2::new_data_simple` (not under src/) —
a freshly created own data property with default flags (spec §4.2:
writable = enumerable = configurable = true). -/
def Property2.new_data_simple (v : Value2) : Property2 := .Data v true true true

/-- Embeds `ArrayObjectInfo` (src/vm/jsvalue/array.rs:6-9): the dense backing
store; the array's length *is* the slot count. -/
structure ArrayObjectInfo where
  elems : List Property2
deriving DecidableEq

namespace ArrayObjectInfo

/-- Embeds `ArrayObjectInfo::get_element` (src/vm/jsvalue/array.rs:12-33): past
the backing store the result is a fresh data descriptor holding
`Undefined`; a data slot is returned with `Empty` mapped to `Undefined`
(flags preserved); an accessor slot is returned as-is. -/
def get_element (a : ArrayObjectInfo) (idx : Nat) : Property2 :=
  if idx ≥ a.elems.length then Property2.new_data_simple Value2.undefined
  else
    match a.elems[idx]? with
    | some (Property2.Data v w e c) => Property2.Data v.to_undefined_if_empty w e c
    | some p => p
    | none => Property2.new_data_simple Value2.undefined

/-- Embeds `ArrayObjectInfo::set_length` (src/vm/jsvalue/array.rs:56-70): extend
by pushing `Empty` data descriptors, shorten by truncation (`set_len`). -/
def set_length (a : ArrayObjectInfo) (len : Nat) : ArrayObjectInfo :=
  if a.elems.length < len then
    ⟨a.elems ++ List.replicate (len - a.elems.length) (Property2.new_data_simple Value2.empty)⟩
  else if a.elems.length > len then ⟨a.elems.take len⟩
  else a

/-- Embeds `ArrayObjectInfo::set_element` (src/vm/jsvalue/array.rs:35-54): an
index past the store first extends via `set_length (idx + 1)`; a data slot
has its value overwritten in place (flags preserved, no setter returned);
an accessor slot is left unchanged and its setter returned unless the
setter is undefined. -/
def set_element (a : ArrayObjectInfo) (idx : Nat) (val : Value2) :
    ArrayObjectInfo × Option Value2 :=
  let a1 := if idx ≥ a.elems.length then a.set_length (idx + 1) else a
  match a1.elems[idx]? with
  | some (Property2.Data _ w e c) => (⟨a1.elems.set idx (Property2.Data val w e c)⟩, none)
  | some (Property2.Accessor _ s) => (a1, if s.is_undefined then none else some s)
  | none => (a1, none)

end ArrayObjectInfo

/-! ### Auxiliary definitions for the theorems -/

/-- Whether `obj_find_val` finds a property map behind the value (the five
map-bearing variants); everything else returns `Undefined` immediately. -/
def hasMapVal : Value → Bool
  | .BuiltinFunction _ _ _ => true
  | .Function _ _ _ => true
  | .Date _ _ => true
  | .Object _ => true
  | .Array _ => true
  | _ => false

/-- The prototype walk from a value, as a list of the visited property maps:
`term` ends the walk at a map-less value (a `null`/primitive prototype);
`last` ends it at an ordinary object with no `__proto__` binding; `cons`
steps through an ordinary object's `__proto__` binding.  A chain of `n`
prototype links lists `n + 1` maps. -/
inductive Chain (ctx : RtCtx) : Value → List PropMap → Prop
  | term (v : Value) : hasMapVal v = false → Chain ctx v []
  | last (h : Nat) (m : PropMap) :
      ctx.ph[h]? = some m → m.get "__proto__" = none → Chain ctx (.Object h) [m]
  | cons (h : Nat) (m : PropMap) (p : Property) (ms : List PropMap) :
      ctx.ph[h]? = some m → m.get "__proto__" = some p → Chain ctx p.val ms →
      Chain ctx (.Object h) (m :: ms)

/-- The claimed specification of `to_uint32` (claim C6), stated with the
mathematical (Euclidean) remainder: NaN/zero/infinity give 0, any other
value gives its sign-adjusted integer part reduced modulo 2^32 into
`[0, 2^32)`. -/
def specToUint32 (num : JsNum) : JsNum :=
  if num.is_nan || num.is_zero || num.is_infinite then .fin 0
  else
    match num with
    | .fin q =>
        .fin (((if q < 0 then -(ratFloorI (ratAbs q)) else ratFloorI (ratAbs q)) % 4294967296
               : ℤ) : ℚ)
    | _ => .fin 0

/-- Value of a little-endian digit list. -/
def ofDigitsLE (L : List Nat) : Nat := L.foldr (fun d a => d + 10 * a) 0

/-- An empty runtime context (no heap objects, placeholder prototypes,
no active call). -/
def ctx0 : RtCtx := ⟨[], [], .Undefined, .Undefined, none⟩

/-- A context with one array `[10, 11, 7]` whose ordinary map binds the
non-canonical index string `"02"` to `99` (claim C4). -/
def ctxA : RtCtx :=
  ⟨[[("02", Property.new (.Number (.fin 99)))]],
   [⟨[Property.new (.Number (.fin 10)), Property.new (.Number (.fin 11)),
      Property.new (.Number (.fin 7))], 3, 0⟩],
   .Undefined, .Undefined, none⟩

/-- A context with an object (map 0) whose prototype is the object of map 1,
which binds `"k"` to `7` and has no prototype of its own (claim C5). -/
def ctxB : RtCtx :=
  ⟨[[("__proto__", Property.new (.Object 1))], [("k", Property.new (.Number (.fin 7)))]],
   [], .Undefined, .Undefined, none⟩

/-- A context with one array `[1, <empty>, 3]` (claim C8: empty slots in
`to_string`). -/
def ctxD : RtCtx :=
  ⟨[], [⟨[Property.new (.Number (.fin 1)), Property.new .Empty,
          Property.new (.Number (.fin 3))], 3, 0⟩],
   .Undefined, .Undefined, none⟩

/-- Contexts used by the to_number array cases (claim C7): a singleton
array `["8"]`, a singleton `[true]`, an empty array, and a pair array. -/
def ctxC : RtCtx :=
  ⟨[], [⟨[Property.new (.String "8")], 1, 0⟩, ⟨[Property.new (.Bool true)], 1, 0⟩,
        ⟨[], 0, 0⟩, ⟨[Property.new .Null, Property.new .Null], 2, 0⟩],
   .Undefined, .Undefined, none⟩

/-! ## Theorems -/

/-- Claim C1, counterexample: the claim says `Null` and `Undefined` compare
abstractly equal to each other, but `Value::abstract_equal` has no arm for
the mixed `Null`/`Undefined` pair and falls to `Ok(false)`. -/
theorem c1_counterexample :
    abstract_equal .Null .Undefined = .ok false ∧
    ¬ abstract_equal .Null .Undefined = .ok true := by
  rw [abstract_equal.eq_def]
  exact ⟨by decide, by decide⟩

/-- Claim C1 (amended): same-runtime-type pairs delegate to strict equality
in both `Value::abstract_equal` and `Value2::eq`; in `Value::abstract_equal`
a mixed Number/String pair compares the number against `to_number` of the
string (so `abstract_equal(Number 1, String "1")` is true) and a Boolean
operand is coerced to a number and the comparison recursed (with the
operands swapped for a right-hand boolean, as in the source); but the mixed
`Null`/`Undefined` pair yields `Ok(false)` there — the mutual
`Null`/`Undefined` equality holds only in `Value2::eq`, which conversely
yields `undefined` (not a boolean) for mixed Number/String pairs. -/
theorem c1_amended :
    (∀ a b, type_equal a b = true → abstract_equal a b = strict_equal a b) ∧
    (∀ n s, abstract_equal (.Number n) (.String s) = .ok (n.jeq (str_to_num s))) ∧
    (∀ s n, abstract_equal (.String s) (.Number n) = .ok ((str_to_num s).jeq n)) ∧
    (∀ b v, type_equal (.Bool b) v = false →
      abstract_equal (.Bool b) v =
        abstract_equal (.Number (if b then .fin 1 else .fin 0)) v) ∧
    (∀ v b, type_equal v (.Bool b) = false →
      abstract_equal v (.Bool b) =
        abstract_equal (.Number (if b then .fin 1 else .fin 0)) v) ∧
    abstract_equal (.Number (.fin 1)) (.String "1") = .ok true ∧
    abstract_equal .Null .Undefined = .ok false ∧
    abstract_equal .Undefined .Null = .ok false ∧
    (∀ sh a b, Value2.is_same_type_as a b = true → Value2.eq sh a b = Value2.strict_eq sh a b) ∧
    (∀ sh, Value2.eq sh (.Other 2) (.Other 3) = some (Value2.bool true)) ∧
    (∀ sh, Value2.eq sh (.Other 3) (.Other 2) = some (Value2.bool true)) ∧
    (∀ sh n h, Value2.eq sh (.Number n) (.String h) = some Value2.undefined) := by
  refine ⟨?_, ?_, ?_, ?_, ?_, ?_, ?_, ?_, ?_, ?_, ?_, ?_⟩
  · intro a b h; rw [abstract_equal.eq_def]; simp [h]
  · intro n s; rw [abstract_equal.eq_def]; rfl
  · intro s n; rw [abstract_equal.eq_def]; rfl
  · intro b v h; rw [abstract_equal.eq_def]; simp [h]
  · intro v b h
    cases v
    case Bool => simp [type_equal] at h
    all_goals rw [abstract_equal.eq_def]; simp [h]
  · rw [abstract_equal.eq_def]; decide
  · rw [abstract_equal.eq_def]; decide
  · rw [abstract_equal.eq_def]; decide
  · intro sh a b h; unfold Value2.eq; simp [h]
  · intro sh; rfl
  · intro sh; rfl
  · intro sh n h; rfl

/-- Claim C1, witness: concrete instances of the hypotheses of
`c1_amended` — a same-type pair, a boolean coerced on the left, a boolean
coerced on the right (operands swapped), and a same-type `Value2` pair. -/
theorem c1_witness :
    abstract_equal (.Number (.fin 2)) (.Number (.fin 2)) =
      strict_equal (.Number (.fin 2)) (.Number (.fin 2)) ∧
    abstract_equal (.Bool true) (.String "1") =
      abstract_equal (.Number (.fin 1)) (.String "1") ∧
    abstract_equal (.Number (.fin 0)) (.Bool false) =
      abstract_equal (.Number (.fin 0)) (.Number (.fin 0)) ∧
    Value2.eq [] (.Number .nan) (.Number .nan) = Value2.strict_eq [] (.Number .nan) (.Number .nan) := by
  refine ⟨c1_amended.1 _ _ (by decide), ?_, ?_, c1_amended.2.2.2.2.2.2.2.2.1 [] _ _ (by decide)⟩
  · exact c1_amended.2.2.2.1 true (.String "1") (by decide)
  · exact c1_amended.2.2.2.2.1 (.Number (.fin 0)) false (by decide)

/-- Claim C2, counterexample: the claim says `Empty` compares strictly
equal against its own kind, but `Value2::strict_eq(Empty, Empty)` falls to
the default `false` arm, and `Value::strict_equal(Empty, Empty)` is
`unreachable!()` (a panic, not `true`). -/
theorem c2_counterexample :
    Value2.strict_eq [] (.Other 1) (.Other 1) = some (Value2.bool false) ∧
    strict_equal .Empty .Empty = .panicked := by
  exact ⟨rfl, rfl⟩

/-- Claim C2 (amended): in `Value::strict_equal` a type mismatch yields
false; `Null` and `Undefined` compare true against their own kind, but
`Empty`/`Empty` is an `unreachable!()` panic (and `false` in
`Value2::strict_eq`); numbers use IEEE equality with an explicit NaN check
first; strings compare by content, booleans by value, objects and arrays by
handle identity; functions compare by their `(id, property-map handle)`
pair and `Arguments`/`Arguments` is an `Unimplemented` error; in
`Value2::strict_eq` even two identical object handles compare false. -/
theorem c2_amended :
    (∀ a b, type_equal a b = false → strict_equal a b = .ok false) ∧
    strict_equal .Null .Null = .ok true ∧
    strict_equal .Undefined .Undefined = .ok true ∧
    strict_equal .Empty .Empty = .panicked ∧
    (∀ sh, Value2.strict_eq sh (.Other 1) (.Other 1) = some (Value2.bool false)) ∧
    (∀ l r, (l.is_nan || r.is_nan) = true → strict_equal (.Number l) (.Number r) = .ok false) ∧
    (∀ l r, l.is_nan = false → r.is_nan = false →
      strict_equal (.Number l) (.Number r) = .ok (l.jeq r)) ∧
    (∀ s t, strict_equal (.String s) (.String t) = .ok (s == t)) ∧
    (∀ b c, strict_equal (.Bool b) (.Bool c) = .ok (b == c)) ∧
    (∀ h k, strict_equal (.Object h) (.Object k) = .ok (h == k)) ∧
    (∀ h k, strict_equal (.Array h) (.Array k) = .ok (h == k)) ∧
    (∀ i1 m1 t1 i2 m2 t2,
      strict_equal (.Function i1 m1 t1) (.Function i2 m2 t2) = .ok (i1 == i2 && m1 == m2)) ∧
    (∀ i1 m1 t1 i2 m2 t2,
      strict_equal (.BuiltinFunction i1 m1 t1) (.BuiltinFunction i2 m2 t2) =
        .ok (i1 == i2 && m1 == m2)) ∧
    strict_equal .Arguments .Arguments = .err ∧
    (∀ sh h, Value2.strict_eq sh (.Object h) (.Object h) = some (Value2.bool false)) := by
  refine ⟨?_, rfl, rfl, rfl, fun _ => rfl, ?_, ?_, fun _ _ => rfl, fun _ _ => rfl,
    fun _ _ => rfl, fun _ _ => rfl, fun _ _ _ _ _ _ => rfl, fun _ _ _ _ _ _ => rfl, rfl, ?_⟩
  · intro a b h
    cases a <;> cases b <;> simp_all [type_equal, strict_equal]
  · intro l r h
    simp [strict_equal, h]
  · intro l r h1 h2
    simp [strict_equal, h1, h2]
  · intro sh h
    simp [Value2.strict_eq, Value2.undefined, Value2.null, Value2.is_same_type_as]

/-- Claim C2, witness: concrete instances of the hypotheses of
`c2_amended` — a mismatched pair, a NaN pair, and a non-NaN number pair. -/
theorem c2_witness :
    strict_equal (.Number .nan) (.String "x") = .ok false ∧
    strict_equal (.Number .nan) (.Number .nan) = .ok false ∧
    strict_equal (.Number (.fin 2)) (.Number (.fin 3)) =
      .ok ((JsNum.fin 2).jeq (.fin 3)) := by
  exact ⟨c2_amended.1 (.Number .nan) (.String "x") (by decide),
    c2_amended.2.2.2.2.2.1 .nan .nan (by decide),
    c2_amended.2.2.2.2.2.2.1 (.fin 2) (.fin 3) (by decide) (by decide)⟩

/-- Helper for C3: `set_length` leaves exactly `len` backing slots. -/
theorem set_length_len (a : ArrayObjectInfo) (len : Nat) :
    (a.set_length len).elems.length = len := by
  unfold ArrayObjectInfo.set_length
  split
  · simp; omega
  · split
    · simp; omega
    · omega

/-- Helper for C3: `set_element` leaves `max (old slot count) (idx + 1)`
backing slots. -/
theorem set_element_len (a : ArrayObjectInfo) (idx : Nat) (v : Value2) :
    ((a.set_element idx v).1).elems.length = max a.elems.length (idx + 1) := by
  unfold ArrayObjectInfo.set_element
  by_cases hle : idx ≥ a.elems.length
  · have hlen := set_length_len a (idx + 1)
    simp only [hle, if_true]
    split <;> simp_all <;> omega
  · simp only [hle, if_false]
    split <;> simp_all <;> omega

/-- Claim C3, counterexample: the claim extends to property-write calls
(`Value::set_property`), but there a `"length"` write does not truncate the
backing slots: starting from the empty array, writing index 3 (slots and
length both become 4) and then writing `length = 1` leaves 4 slots with
`length` 1, so `elems.len() == length` fails after the second call. -/
theorem c3_counterexample :
    ((array_set_property ctx0 1 ⟨[], 0, 0⟩ (.Number (.fin 3)) (.Number (.fin 9))).bind
      (fun r1 => (array_set_property ctx0 1 r1.1 (.String "length") (.Number (.fin 1))).map
        (fun r2 => (r2.1.elems.length, r2.1.length)))) = some (4, 1) ∧ (4 : Nat) ≠ 1 := by
  exact ⟨by decide, by decide⟩

/-- Claim C3 (amended): for the `ArrayObjectInfo` operations of
src/vm/jsvalue/array.rs the invariant holds with `length` being the backing
slot count itself: `set_length len` leaves exactly `len` slots (truncating
or padding with `Empty`), `set_element idx v` leaves `max old (idx+1)`
slots, and concretely from the empty array `set_element 3 9` gives 4 slots
with slots 0-2 reading `Undefined` and slot 3 reading `9`, after which
`set_length 1` gives 1 slot with slot 3 unreachable (reading `Undefined`).
In the legacy `Value::set_property` path, however, a `"length"` write
updates the `length` field without truncating `elems` (see the
counterexample), although reads past `length` still return `Undefined`:
after the counterexample sequence, reading slot 3 gives `Undefined`. -/
theorem c3_amended :
    (∀ (a : ArrayObjectInfo) (len : Nat), (a.set_length len).elems.length = len) ∧
    (∀ (a : ArrayObjectInfo) (idx : Nat) (v : Value2),
      ((a.set_element idx v).1).elems.length = max a.elems.length (idx + 1)) ∧
    (((⟨[]⟩ : ArrayObjectInfo).set_element 3 (.Number (.fin 9))).1.elems.length = 4 ∧
      ((⟨[]⟩ : ArrayObjectInfo).set_element 3 (.Number (.fin 9))).1.get_element 0 =
        Property2.new_data_simple Value2.undefined ∧
      ((⟨[]⟩ : ArrayObjectInfo).set_element 3 (.Number (.fin 9))).1.get_element 1 =
        Property2.new_data_simple Value2.undefined ∧
      ((⟨[]⟩ : ArrayObjectInfo).set_element 3 (.Number (.fin 9))).1.get_element 2 =
        Property2.new_data_simple Value2.undefined ∧
      ((⟨[]⟩ : ArrayObjectInfo).set_element 3 (.Number (.fin 9))).1.get_element 3 =
        Property2.Data (.Number (.fin 9)) true true true ∧
      (((⟨[]⟩ : ArrayObjectInfo).set_element 3 (.Number (.fin 9))).1.set_length 1).elems.length
        = 1 ∧
      (((⟨[]⟩ : ArrayObjectInfo).set_element 3 (.Number (.fin 9))).1.set_length 1).get_element 3
        = Property2.new_data_simple Value2.undefined) ∧
    ((array_set_property ctx0 1 ⟨[], 0, 0⟩ (.Number (.fin 3)) (.Number (.fin 9))).bind
      (fun r1 => (array_set_property ctx0 1 r1.1 (.String "length") (.Number (.fin 1))).bind
        (fun r2 => get_by_idx ⟨[], [r2.1], .Undefined, .Undefined, none⟩ (.Array 0) 3)))
      = some .Undefined := by
  exact ⟨set_length_len, set_element_len, by decide, by decide⟩

/-- Helper for C6: Rust's truncated remainder by 2^32 followed by the
add-2^32-if-negative adjustment equals the Euclidean remainder by 2^32. -/
theorem tmod_wrap (c : ℤ) :
    (if c.tmod 4294967296 < 0 then 4294967296 + c.tmod 4294967296 else c.tmod 4294967296)
      = c % 4294967296 := by
  rcases c with k | k
  · rw [Int.ofNat_eq_natCast, Int.tmod_eq_emod (by positivity) (by norm_num)]
    rw [if_neg (not_lt.mpr (Int.emod_nonneg _ (by norm_num)))]
  · have h1 : (Int.negSucc k).tmod 4294967296 = -(((k + 1) % 4294967296 : ℕ) : ℤ) := rfl
    have h2 : (Int.negSucc k) = -((k + 1 : ℕ) : ℤ) := by
      rw [Int.negSucc_eq]; push_cast; ring
    rw [h1, h2]
    split <;> omega

/-- Helper for C6: on a nonzero finite value, `uint32core` is the Euclidean
remainder by 2^32 of the saturating-cast truncation. -/
theorem uint32core_fin (q : ℚ) (h0 : ¬ q = 0) :
    uint32core (.fin q) =
      .fin (((castI64 (if q < 0 then -(ratFloorI (ratAbs q)) else ratFloorI (ratAbs q)))
              % 4294967296 : ℤ) : ℚ) := by
  have key : ∀ c : ℤ,
      (if c.tmod 4294967296 < 0 then JsNum.fin ((4294967296 + c.tmod 4294967296 : ℤ) : ℚ)
        else JsNum.fin ((c.tmod 4294967296 : ℤ) : ℚ)) = .fin ((c % 4294967296 : ℤ) : ℚ) := by
    intro c
    by_cases hm : c.tmod 4294967296 < 0
    · rw [if_pos hm, ← tmod_wrap, if_pos hm]
    · rw [if_neg hm, ← tmod_wrap, if_neg hm]
  have hguard : ((JsNum.fin q).is_nan || (JsNum.fin q).is_zero || (JsNum.fin q).is_infinite)
      = false := by
    simp [JsNum.is_nan, JsNum.is_zero, JsNum.is_infinite, h0]
  unfold uint32core
  rw [hguard, if_neg (by simp)]
  exact key _

/-- Claim C6, counterexample: at `Number(2^64)` (an exactly representable
double) the claimed value is `2^64 mod 2^32 = 0`, but the code's `as i64`
cast saturates the truncation to `2^63 - 1` first, giving `2^32 - 1`. -/
theorem c6_counterexample :
    uint32core (.fin ((2 : ℚ) ^ 64)) = .fin 4294967295 ∧
    specToUint32 (.fin ((2 : ℚ) ^ 64)) = .fin 0 ∧
    uint32core (.fin ((2 : ℚ) ^ 64)) ≠ specToUint32 (.fin ((2 : ℚ) ^ 64)) := by
  exact ⟨by decide, by decide, by decide⟩

/-- Claim C6 (amended): `to_uint32` gives 0 when the number is NaN, zero or
infinite; otherwise the truncation toward zero is first clamped by the
saturating `as i64` cast into `[-2^63, 2^63-1]`, and within that range the
result is exactly the claimed sign-adjusted value modulo 2^32; the result
always lies in `[0, 2^32)`. -/
theorem c6_amended :
    (∀ num : JsNum, (num.is_nan || num.is_zero || num.is_infinite) = true →
      uint32core num = .fin 0) ∧
    (∀ q : ℚ,
      -(2 ^ 63) ≤ (if q < 0 then -(ratFloorI (ratAbs q)) else ratFloorI (ratAbs q)) →
      (if q < 0 then -(ratFloorI (ratAbs q)) else ratFloorI (ratAbs q)) ≤ 2 ^ 63 - 1 →
      uint32core (.fin q) = specToUint32 (.fin q)) ∧
    (∀ num : JsNum, ∃ m : ℕ, m < 2 ^ 32 ∧ uint32core num = .fin m) := by
  refine ⟨?_, ?_, ?_⟩
  · intro num h
    simp [uint32core, h]
  · intro q h1 h2
    by_cases h0 : q = 0
    · subst h0; decide
    · have hc : castI64 (if q < 0 then -(ratFloorI (ratAbs q)) else ratFloorI (ratAbs q)) =
          (if q < 0 then -(ratFloorI (ratAbs q)) else ratFloorI (ratAbs q)) := by
        unfold castI64
        rw [if_neg (by omega), if_neg (by omega)]
      rw [uint32core_fin q h0, hc]
      simp [specToUint32, JsNum.is_nan, JsNum.is_zero, JsNum.is_infinite, h0]
  · intro num
    cases num with
    | fin q =>
        by_cases h0 : q = 0
        · exact ⟨0, by norm_num, by subst h0; decide⟩
        · rw [uint32core_fin q h0]
          set c := castI64 (if q < 0 then -(ratFloorI (ratAbs q)) else ratFloorI (ratAbs q))
          have hnn : 0 ≤ c % 4294967296 := Int.emod_nonneg _ (by norm_num)
          have hlt : c % 4294967296 < 4294967296 := Int.emod_lt_of_pos _ (by norm_num)
          refine ⟨(c % 4294967296).toNat, by omega, ?_⟩
          have ht : ((c % 4294967296).toNat : ℤ) = c % 4294967296 := Int.toNat_of_nonneg hnn
          exact congrArg JsNum.fin (by exact_mod_cast ht.symm)
    | nan => exact ⟨0, by norm_num, by decide⟩
    | posInf => exact ⟨0, by norm_num, by decide⟩
    | negInf => exact ⟨0, by norm_num, by decide⟩
    | negZero => exact ⟨0, by norm_num, by decide⟩

/-- Claim C6, witness: concrete instances of the hypotheses of
`c6_amended` — a NaN input and the in-range value `-5` (where the code and
the claimed formula agree: `2^32 - 5`). -/
theorem c6_witness :
    uint32core .nan = .fin 0 ∧
    uint32core (.fin (-5)) = specToUint32 (.fin (-5)) := by
  exact ⟨c6_amended.1 .nan (by decide), c6_amended.2.1 (-5) (by decide) (by decide)⟩

/-- Claim C7: the full dispatch table of `Value::to_number` — `Undefined` to
NaN; booleans to 0/1; numbers to themselves; whitespace-only (including
empty) strings to 0; other strings to their float parse, NaN on failure;
an empty array to 0; a singleton array to its sole element's coercion
unless that element is a boolean (then NaN); longer arrays to NaN. -/
theorem c7_to_number :
    (∀ ctx fuel, to_number ctx fuel .Undefined = some .nan) ∧
    (∀ ctx fuel, to_number ctx fuel (.Bool false) = some (.fin 0)) ∧
    (∀ ctx fuel, to_number ctx fuel (.Bool true) = some (.fin 1)) ∧
    (∀ ctx fuel n, to_number ctx fuel (.Number n) = some n) ∧
    (∀ ctx fuel s, s.toList.all rustIsWhitespace = true →
      to_number ctx fuel (.String s) = some (.fin 0)) ∧
    (∀ ctx fuel s, s.toList.all rustIsWhitespace = false →
      to_number ctx fuel (.String s) =
        some (match parseF64 s with | some q => q | none => .nan)) ∧
    (∀ ctx fuel h ary, ctx.ah[h]? = some ary → ary.length = 0 →
      to_number ctx (fuel + 1) (.Array h) = some (.fin 0)) ∧
    (∀ ctx fuel h ary p ps, ctx.ah[h]? = some ary → ary.length = 1 → ary.elems = p :: ps →
      (∀ b, p.val ≠ .Bool b) →
      to_number ctx (fuel + 1) (.Array h) = to_number ctx fuel p.val) ∧
    (∀ ctx fuel h ary p ps b, ctx.ah[h]? = some ary → ary.length = 1 → ary.elems = p :: ps →
      p.val = .Bool b → to_number ctx (fuel + 1) (.Array h) = some .nan) ∧
    (∀ ctx fuel h ary, ctx.ah[h]? = some ary → 2 ≤ ary.length →
      to_number ctx (fuel + 1) (.Array h) = some .nan) := by
  refine ⟨fun _ _ => by simp [to_number], fun _ _ => by simp [to_number],
    fun _ _ => by simp [to_number], fun _ _ _ => by simp [to_number], ?_, ?_, ?_, ?_, ?_, ?_⟩
  · intro ctx fuel s h
    simp only [to_number, str_to_num, h]
    rfl
  · intro ctx fuel s h
    simp only [to_number, str_to_num, h]
    rfl
  · intro ctx fuel h ary hh hl
    simp [to_number, hh, hl]
  · intro ctx fuel h ary p ps hh hl he hnb
    cases hv : p.val <;> simp_all [to_number]
  · intro ctx fuel h ary p ps b hh hl he hb
    simp [to_number, hh, hl, he, hb]
  · intro ctx fuel h ary hh hl
    obtain ⟨k, hk⟩ : ∃ k, ary.length = k + 2 := ⟨ary.length - 2, by omega⟩
    simp [to_number, hh, hk]

/-- Claim C7, witness: concrete instances of the hypotheses of
`c7_to_number` — a whitespace string, the empty array, a singleton string
array (delegating to the element), a singleton boolean array, and a pair
array. -/
theorem c7_witness :
    to_number ctx0 1 (.String " ") = some (.fin 0) ∧
    to_number ctxC 2 (.Array 2) = some (.fin 0) ∧
    to_number ctxC 2 (.Array 0) = to_number ctxC 1 (.String "8") ∧
    to_number ctxC 2 (.Array 1) = some .nan ∧
    to_number ctxC 2 (.Array 3) = some .nan := by
  refine ⟨c7_to_number.2.2.2.2.1 ctx0 1 " " (by decide),
    c7_to_number.2.2.2.2.2.2.1 ctxC 1 2 ⟨[], 0, 0⟩ (by decide) (by decide),
    c7_to_number.2.2.2.2.2.2.2.1 ctxC 1 0 ⟨[Property.new (.String "8")], 1, 0⟩
      (Property.new (.String "8")) [] (by decide) (by decide) (by decide) (by decide),
    c7_to_number.2.2.2.2.2.2.2.2.1 ctxC 1 1 ⟨[Property.new (.Bool true)], 1, 0⟩
      (Property.new (.Bool true)) [] true (by decide) (by decide) (by decide) (by decide),
    c7_to_number.2.2.2.2.2.2.2.2.2 ctxC 1 3 ⟨[Property.new .Null, Property.new .Null], 2, 0⟩
      (by decide) (by decide)⟩

/-- Claim C8, counterexample: the claim says negative infinity renders as
`"-Infinity"`, but `Value::to_string` returns `"Infinity"` for any infinite
number without checking the sign. -/
theorem c8_counterexample :
    to_string ctx0 1 (.Number .negInf) = some "Infinity" ∧
    ¬ to_string ctx0 1 (.Number .negInf) = some "-Infinity" := by
  exact ⟨by decide, by decide⟩

/-- Claim C8 (amended): numbers render `"NaN"` for NaN and `"0"` for any
zero including negative zero, but *both* infinities render `"Infinity"`
(the sign is not consulted); arrays render the comma-join of their first
`length` elements' renderings with trailing commas stripped, where an
`Empty` slot renders as `"empty"` (the `Empty` variant's own rendering),
not as the empty string; plain objects render the fixed literal
`"[object Object]"`. -/
theorem c8_amended :
    (∀ ctx fuel, to_string ctx fuel (.Number .nan) = some "NaN") ∧
    (∀ ctx fuel n, n.is_zero = true → to_string ctx fuel (.Number n) = some "0") ∧
    to_string ctx0 1 (.Number .negZero) = some "0" ∧
    (∀ ctx fuel, to_string ctx fuel (.Number .posInf) = some "Infinity") ∧
    (∀ ctx fuel, to_string ctx fuel (.Number .negInf) = some "Infinity") ∧
    (∀ ctx fuel h, to_string ctx fuel (.Object h) = some "[object Object]") ∧
    (∀ ctx fuel h ary, ctx.ah[h]? = some ary → ary.length ≤ ary.elems.length →
      to_string ctx (fuel + 1) (.Array h) =
        ((ary.elems.take ary.length).mapM (fun p => to_string ctx fuel p.val)).map
          (fun ss => trimTrailingCommas (String.join (ss.map (fun s => s ++ ","))))) ∧
    to_string ctxD 2 (.Array 0) = some "1,empty,3" ∧
    to_string ctxC 2 (.Array 2) = some "" := by
  refine ⟨fun _ _ => by simp [to_string, numToString, JsNum.is_nan], ?_, by decide,
    fun _ _ => by simp [to_string, numToString]; decide,
    fun _ _ => by simp [to_string, numToString]; decide,
    fun _ _ _ => by simp [to_string], ?_, by decide, by decide⟩
  · intro ctx fuel n h
    have h1 : numToString n = "0" := by
      cases n <;> simp_all [numToString, JsNum.is_zero, JsNum.is_nan]
    simp [to_string, h1]
  · intro ctx fuel h ary hh hl
    simp [to_string, hh, hl]

/-- Claim C8, witness: concrete instances of the hypotheses of
`c8_amended` — the zero rendering at an exact zero, and the array-join
formula at the concrete array `[1, <empty>, 3]`. -/
theorem c8_witness :
    to_string ctx0 1 (.Number (.fin 0)) = some "0" ∧
    to_string ctxD 2 (.Array 0) =
      ((([Property.new (.Number (.fin 1)), Property.new .Empty,
          Property.new (.Number (.fin 3))].take 3).mapM
            (fun p => to_string ctxD 1 p.val)).map
        (fun ss => trimTrailingCommas (String.join (ss.map (fun s => s ++ ","))))) := by
  refine ⟨c8_amended.2.1 ctx0 1 (.fin 0) (by decide), ?_⟩
  exact c8_amended.2.2.2.2.2.2.1 ctxD 1 0
    ⟨[Property.new (.Number (.fin 1)), Property.new .Empty,
      Property.new (.Number (.fin 3))], 3, 0⟩ (by decide) (by decide)

/-- Claim C9: `get_property` is *not* total — a string receiver with an
integral key at or past the character count panics (the source unwraps
`chars().nth(n)`, which is `None` there; `none` embeds the panic).  A
negative integral key saturates to index 0 and succeeds, and `"length"`
returns the UTF-16 code-unit count, as the claim says. -/
theorem c9_string_get_panics :
    get_property ctx0 1 (.String "ab") (.Number (.fin 5)) = none ∧
    get_property ctx0 1 (.String "ab") (.Number (.fin (-3))) = some (.String "a") ∧
    get_property ctx0 1 (.String "ab") (.String "length") = some (.Number (.fin 2)) := by
  exact ⟨by decide, by decide, by decide⟩

/-! ### Digit-string lemmas (for claim C4)

The canonical decimal string of `i` round-trips through `str_to_num`,
`uint32core` and `numToString`, which is what sends `get_property(a, "i")`
down the same fast index path as `get_property(a, Number(i))`. -/

theorem dChar_bounds (d : Nat) : 48 ≤ (dChar d).toNat ∧ (dChar d).toNat ≤ 57 := by
  unfold dChar; split <;> decide

theorem isDigitC_dChar (d : Nat) : isDigitC (dChar d) = true := by
  unfold isDigitC
  have := dChar_bounds d
  simp; omega

theorem digVal_dChar {d : Nat} (h : d < 10) : digVal (dChar d) = d := by
  interval_cases d <;> decide

theorem ofDigitsLE_nil : ofDigitsLE [] = 0 := rfl

theorem ofDigitsLE_cons (a : Nat) (L : List Nat) :
    ofDigitsLE (a :: L) = a + 10 * ofDigitsLE L := rfl

theorem digitsRev_lt (f : Nat) : ∀ n, ∀ d ∈ digitsRev f n, d < 10 := by
  induction f with
  | zero => intro n d hd; simp [digitsRev] at hd
  | succ f ih =>
      intro n d hd
      unfold digitsRev at hd
      split at hd
      · simp at hd
      · rcases List.mem_cons.mp hd with h | h
        · subst h; exact Nat.mod_lt _ (by norm_num)
        · exact ih _ d h

theorem ofDigitsLE_digitsRev (f : Nat) : ∀ n, n ≤ f → ofDigitsLE (digitsRev f n) = n := by
  induction f with
  | zero => intro n hn; interval_cases n; rfl
  | succ f ih =>
      intro n hn
      unfold digitsRev
      by_cases h0 : n = 0
      · simp [h0, ofDigitsLE_nil]
      · rw [if_neg h0, ofDigitsLE_cons]
        have hdiv : n / 10 ≤ f := by
          have := Nat.div_lt_self (Nat.pos_of_ne_zero h0) (show 1 < 10 by norm_num)
          omega
        rw [ih _ hdiv]
        omega

theorem digitsVal_rev_map (L : List Nat) (h : ∀ d ∈ L, d < 10) :
    digitsVal ((L.reverse).map dChar) = ofDigitsLE L := by
  induction L with
  | nil => rfl
  | cons a L ih =>
      rw [List.reverse_cons, List.map_append]
      unfold digitsVal
      rw [List.foldl_append]
      simp only [List.map_cons, List.map_nil, List.foldl_cons, List.foldl_nil]
      rw [digVal_dChar (h a (by simp))]
      have ih' := ih (fun d hd => h d (by simp [hd]))
      unfold digitsVal at ih'
      rw [ih', ofDigitsLE_cons]
      ring

theorem natDecimal_data (n : Nat) :
    (natDecimal n).data = if n = 0 then ['0'] else ((digitsRev n n).reverse).map dChar := by
  unfold natDecimal; split <;> rfl

theorem natDecimal_all_digits (n : Nat) : ∀ c ∈ (natDecimal n).data, isDigitC c = true := by
  intro c hc
  rw [natDecimal_data] at hc
  split at hc
  · simp at hc; subst hc; decide
  · rw [List.mem_map] at hc
    obtain ⟨d, _, rfl⟩ := hc
    exact isDigitC_dChar d

theorem natDecimal_ne_nil (n : Nat) : (natDecimal n).data ≠ [] := by
  rw [natDecimal_data]
  split
  · simp
  · next h =>
      have : digitsRev n n ≠ [] := by
        obtain ⟨f, rfl⟩ : ∃ f, n = f + 1 := ⟨n - 1, by omega⟩
        unfold digitsRev
        simp [h]
      simp [this]

theorem digitsVal_natDecimal (n : Nat) : digitsVal (natDecimal n).data = n := by
  rw [natDecimal_data]
  by_cases h0 : n = 0
  · simp [h0]; decide
  · rw [if_neg h0, digitsVal_rev_map _ (digitsRev_lt n n), ofDigitsLE_digitsRev n n (le_refl n)]

theorem takeWhile_all {α : Type} (p : α → Bool) (l : List α) (h : ∀ c ∈ l, p c = true) :
    l.takeWhile p = l :=
  List.takeWhile_eq_self_iff.mpr h

theorem dropWhile_all {α : Type} (p : α → Bool) (l : List α) (h : ∀ c ∈ l, p c = true) :
    l.dropWhile p = [] := by
  induction l with
  | nil => rfl
  | cons a l ih =>
      rw [List.dropWhile_cons, if_pos (h a (by simp))]
      exact ih (fun c hc => h c (by simp [hc]))

theorem parseSign_digit (c : Char) (t : List Char) (h : isDigitC c = true) :
    parseSign (c :: t) = (false, c :: t) := by
  unfold parseSign
  split
  · next heq => simp_all [isDigitC]
  · next heq => simp_all [isDigitC]
  · rfl

theorem lowerAscii_digit (c : Char) (h : isDigitC c = true) : lowerAscii c = c := by
  unfold isDigitC at h
  unfold lowerAscii
  rw [if_neg]
  simp at h
  omega

theorem map_lowerAscii_digits (l : List Char) (h : ∀ c ∈ l, isDigitC c = true) :
    l.map lowerAscii = l := by
  induction l with
  | nil => rfl
  | cons a l ih =>
      rw [List.map_cons, lowerAscii_digit a (h a (by simp)),
        ih (fun c hc => h c (by simp [hc]))]

theorem mkF64_false (v : ℚ) : mkF64 false v = .fin v := by
  unfold mkF64
  split <;> simp_all

theorem litVal_int (m : Nat) : litVal m 0 false 0 = (m : ℚ) := by
  unfold litVal
  norm_num [Rat.divInt_one]

/-- A nonempty all-digit string parses to its digit value (exactly). -/
theorem parseF64_digits (l : List Char) (hne : l ≠ [])
    (hd : ∀ c ∈ l, isDigitC c = true) :
    parseF64 ⟨l⟩ = some (.fin (digitsVal l : ℚ)) := by
  obtain ⟨c, t, rfl⟩ : ∃ c t, l = c :: t := by
    cases l with
    | nil => exact absurd rfl hne
    | cons c t => exact ⟨c, t, rfl⟩
  have hc : isDigitC c = true := hd c (by simp)
  have hcn : 48 ≤ c.toNat ∧ c.toNat ≤ 57 := by unfold isDigitC at hc; simpa using hc
  have hinf : ¬((c :: t).map lowerAscii = ['i', 'n', 'f'] ∨
      (c :: t).map lowerAscii = ['i', 'n', 'f', 'i', 'n', 'i', 't', 'y']) := by
    rw [map_lowerAscii_digits _ hd]
    rintro (heq | heq) <;>
      · injection heq with h1 _
        subst h1
        revert hcn
        decide
  have hnan : ¬((c :: t).map lowerAscii = ['n', 'a', 'n']) := by
    rw [map_lowerAscii_digits _ hd]
    intro heq
    injection heq with h1 _
    subst h1
    revert hcn
    decide
  unfold parseF64
  rw [show (String.mk (c :: t)).toList = c :: t from rfl]
  rw [parseSign_digit c t hc]
  simp only
  rw [if_neg hinf, if_neg hnan]
  rw [takeWhile_all _ _ hd, dropWhile_all _ _ hd]
  simp only [List.isEmpty_cons, Bool.false_and, List.takeWhile_nil, List.dropWhile_nil,
    List.isEmpty_nil, Bool.and_true, Bool.false_eq_true, if_false, List.length_nil]
  rw [show (digitsVal (c :: t) * 10 ^ 0 + digitsVal [] : ℕ) = digitsVal (c :: t) by
    simp [digitsVal]]
  rw [litVal_int, mkF64_false]

theorem parseF64_natDecimal (n : Nat) : parseF64 (natDecimal n) = some (.fin (n : ℚ)) := by
  have h := parseF64_digits (natDecimal n).data (natDecimal_ne_nil n) (natDecimal_all_digits n)
  rw [digitsVal_natDecimal] at h
  exact h

theorem rustIsWhitespace_digit (c : Char) (h : isDigitC c = true) :
    rustIsWhitespace c = false := by
  unfold isDigitC at h
  simp at h
  obtain ⟨h1, h2⟩ := h
  unfold rustIsWhitespace
  generalize hk : c.toNat = k at h1 h2 ⊢
  interval_cases k <;> rfl

theorem str_to_num_natDecimal (n : Nat) : str_to_num (natDecimal n) = .fin (n : ℚ) := by
  obtain ⟨c, t, hct⟩ : ∃ c t, (natDecimal n).data = c :: t := by
    cases h : (natDecimal n).data with
    | nil => exact absurd h (natDecimal_ne_nil n)
    | cons c t => exact ⟨c, t, rfl⟩
  have hws : (natDecimal n).toList.all rustIsWhitespace = false := by
    have hc := rustIsWhitespace_digit c (natDecimal_all_digits n c (by rw [hct]; simp))
    show ((natDecimal n).data).all rustIsWhitespace = false
    rw [hct]
    simp [hc]
  unfold str_to_num
  rw [hws]
  simp only [Bool.false_eq_true, if_false]
  rw [parseF64_natDecimal]

theorem ratFloorI_natCast (n : Nat) : ratFloorI (n : ℚ) = n := by
  unfold ratFloorI
  rw [Rat.num_natCast, Rat.den_natCast]
  simp [Int.fdiv_one]

theorem cast_usize_natCast (n : Nat) (h : n < 2 ^ 64) :
    (JsNum.fin (n : ℚ)).cast_usize = n := by
  show (if (n : ℚ) < 0 then 0 else min (ratFloorI (n : ℚ)).toNat (2 ^ 64 - 1)) = n
  rw [if_neg (not_lt.mpr (by positivity)), ratFloorI_natCast, Int.toNat_natCast]
  omega

theorem uint32core_natCast (n : Nat) (h : n < 2 ^ 32) :
    uint32core (.fin (n : ℚ)) = .fin (n : ℚ) := by
  by_cases h0 : n = 0
  · subst h0; norm_num; decide
  · have hq0 : ¬ ((n : ℚ) = 0) := by exact_mod_cast h0
    rw [uint32core_fin _ hq0]
    have habs : ratAbs (n : ℚ) = (n : ℚ) := by
      unfold ratAbs; rw [if_neg (not_lt.mpr (by positivity))]
    rw [if_neg (not_lt.mpr (by positivity)), habs, ratFloorI_natCast]
    have hcast : castI64 (n : ℤ) = (n : ℤ) := by
      unfold castI64
      rw [if_neg (by omega), if_neg (by omega)]
    rw [hcast, Int.emod_eq_of_lt (by positivity) (by omega)]
    norm_num

theorem numToString_natCast (n : Nat) : numToString (.fin (n : ℚ)) = natDecimal n := by
  by_cases h0 : n = 0
  · subst h0; norm_num; decide
  · have hq0 : ¬ ((n : ℚ) = 0) := by exact_mod_cast h0
    unfold numToString
    rw [if_neg (by simp [JsNum.is_nan]), if_neg (by simp [JsNum.is_zero, hq0]),
      if_neg (by simp [JsNum.is_infinite])]
    simp only
    rw [if_pos (by rw [Rat.den_natCast]),
      if_neg (by rw [Rat.num_natCast]; exact not_lt.mpr (by positivity)),
      Rat.num_natCast, Int.toNat_natCast]

theorem natDecimal_ne_length (n : Nat) : natDecimal n ≠ "length" := by
  intro h
  have hdata : (natDecimal n).data = "length".data := by rw [h]
  obtain ⟨c, t, hct⟩ : ∃ c t, (natDecimal n).data = c :: t := by
    cases hh : (natDecimal n).data with
    | nil => exact absurd hh (natDecimal_ne_nil n)
    | cons c t => exact ⟨c, t, rfl⟩
  have hc := natDecimal_all_digits n c (by rw [hct]; simp)
  rw [hct] at hdata
  have : c = 'l' := by
    have : "length".data = 'l' :: ['e', 'n', 'g', 't', 'h'] := rfl
    rw [this, List.cons_eq_cons] at hdata
    exact hdata.1
  subst this
  revert hc
  decide

theorem property_of_array_num (ctx : RtCtx) (fuel : Nat) (obj selfv : Value) (n : JsNum)
    (h : (n.is_integer && n.ge_zero) = true) :
    property_of_array ctx fuel obj selfv (.Number n) = get_by_idx ctx obj n.cast_usize := by
  unfold property_of_array
  simp [h]

theorem property_of_array_str_idx (ctx : RtCtx) (fuel : Nat) (obj selfv : Value) (s : String)
    (hlen : s ≠ "length") (hrt : numToString (uint32core (str_to_num s)) = s) :
    property_of_array ctx fuel obj selfv (.String s) =
      get_by_idx ctx obj (uint32core (str_to_num s)).cast_usize := by
  unfold property_of_array
  simp [hlen, hrt]

theorem property_of_array_str_map (ctx : RtCtx) (fuel : Nat) (obj selfv : Value) (s : String)
    (hlen : s ≠ "length") (hrt : ¬ numToString (uint32core (str_to_num s)) = s) :
    property_of_array ctx fuel obj selfv (.String s) =
      (obj_find_val ctx fuel obj s).map (fun r => set_this r.1 selfv) := by
  unfold property_of_array
  simp [hlen, hrt]

/-- Claim C4: for an array receiver, a numeric index `i < 2^32` and its
canonical decimal string key resolve identically (both take the fast index
path through `get_by_idx`); a non-round-tripping index string such as
`"02"` does not take the fast path and instead goes through ordinary
`obj_find_val` map lookup — concretely, on `ctxA` (array `[10, 11, 7]`
whose ordinary map binds `"02"` to `99`), the key `"02"` reads `99` from
the map while index `2` reads `7` from the slots. -/
theorem c4_index_string_equiv :
    (∀ ctx fuel h (i : ℕ), i < 2 ^ 32 →
      get_property ctx fuel (.Array h) (.Number (.fin (i : ℚ))) =
        get_property ctx fuel (.Array h) (.String (natDecimal i))) ∧
    (∀ ctx fuel h s, numToString (uint32core (str_to_num s)) ≠ s → s ≠ "length" →
      get_property ctx fuel (.Array h) (.String s) =
        (obj_find_val ctx fuel (.Array h) s).map (fun r => set_this r.1 (.Array h))) ∧
    get_property ctxA 1 (.Array 0) (.String "02") = some (.Number (.fin 99)) ∧
    get_property ctxA 1 (.Array 0) (.Number (.fin 2)) = some (.Number (.fin 7)) := by
  refine ⟨?_, ?_, by decide, by decide⟩
  · intro ctx fuel h i hi
    show property_of_array ctx fuel (.Array h) (.Array h) (.Number (.fin (i : ℚ)))
        = property_of_array ctx fuel (.Array h) (.Array h) (.String (natDecimal i))
    rw [property_of_array_num ctx fuel (.Array h) (.Array h) (.fin (i : ℚ))
      (by simp [JsNum.is_integer, JsNum.ge_zero, Rat.den_natCast])]
    rw [property_of_array_str_idx ctx fuel (.Array h) (.Array h) (natDecimal i)
      (natDecimal_ne_length i)
      (by rw [str_to_num_natDecimal, uint32core_natCast i hi, numToString_natCast])]
    rw [str_to_num_natDecimal, uint32core_natCast i hi]
  · intro ctx fuel h s hrt hlen
    show property_of_array ctx fuel (.Array h) (.Array h) (.String s) = _
    exact property_of_array_str_map ctx fuel (.Array h) (.Array h) s hlen hrt

/-- Claim C4, witness: concrete instances of the hypotheses of
`c4_index_string_equiv` — the equivalence at index 2 on `ctxA`, and the
fall-through at the non-canonical string `"02"`. -/
theorem c4_witness :
    get_property ctxA 1 (.Array 0) (.Number (.fin ((2 : ℕ) : ℚ))) =
      get_property ctxA 1 (.Array 0) (.String (natDecimal 2)) ∧
    get_property ctxA 1 (.Array 0) (.String "02") =
      (obj_find_val ctxA 1 (.Array 0) "02").map (fun r => set_this r.1 (.Array 0)) := by
  exact ⟨c4_index_string_equiv.1 ctxA 1 0 2 (by norm_num),
    c4_index_string_equiv.2.1 ctxA 1 0 "02" (by decide) (by decide)⟩

/-- Helper for C5: `obj_find_val` on a map-less value answers `Undefined`
with no key lookups. -/
theorem obj_find_val_nomap (ctx : RtCtx) (fuel : Nat) (v : Value) (key : String)
    (h : hasMapVal v = false) :
    obj_find_val ctx (fuel + 1) v key = some (.Undefined, 0) := by
  cases v <;> simp_all [hasMapVal, obj_find_val]

/-- Helper for C5: when the key is absent from every map of the prototype
walk, `obj_find_val` returns `Undefined` after exactly one key lookup per
visited map. -/
theorem chain_absent (ctx : RtCtx) {v : Value} {ms : List PropMap}
    (hc : Chain ctx v ms) (key : String)
    (habs : ∀ m ∈ ms, m.get key = none) :
    ∀ fuel, ms.length < fuel → obj_find_val ctx fuel v key = some (.Undefined, ms.length) := by
  induction hc with
  | term v hv =>
      intro fuel hf
      obtain ⟨f, rfl⟩ : ∃ f, fuel = f + 1 := ⟨fuel - 1, by omega⟩
      simpa using obj_find_val_nomap ctx f v key hv
  | last h m hm hp =>
      intro fuel hf
      obtain ⟨f, rfl⟩ : ∃ f, fuel = f + 1 := ⟨fuel - 1, by omega⟩
      have hk : m.get key = none := habs m (by simp)
      simp [obj_find_val, hm, hk, hp]
  | cons h m p ms hm hp hchain ih =>
      intro fuel hf
      obtain ⟨f, rfl⟩ : ∃ f, fuel = f + 1 := ⟨fuel - 1, by omega⟩
      have hk : m.get key = none := habs m (by simp)
      have ih' := ih (fun m' hm' => habs m' (by simp [hm'])) f (by simp at hf; omega)
      simp [obj_find_val, hm, hk, hp, ih']

/-- Helper for C5: the first map of the walk owning the key wins, after one
key lookup per map up to and including it. -/
theorem chain_found (ctx : RtCtx) {v : Value} {ms : List PropMap}
    (hc : Chain ctx v ms) (key : String) :
    ∀ ms1 m ms2 p, ms = ms1 ++ m :: ms2 → (∀ m' ∈ ms1, m'.get key = none) →
      m.get key = some p → ∀ fuel, ms1.length < fuel →
      obj_find_val ctx fuel v key = some (p.val, ms1.length + 1) := by
  induction hc with
  | term v hv =>
      intro ms1 m ms2 p hms
      exact absurd hms (by simp)
  | last h m0 hm hp =>
      intro ms1 m ms2 p hms habs hk fuel hf
      cases ms1 with
      | nil =>
          simp only [List.nil_append, List.cons_eq_cons] at hms
          obtain ⟨rfl, rfl⟩ := hms
          obtain ⟨f, rfl⟩ : ∃ f, fuel = f + 1 := ⟨fuel - 1, by omega⟩
          simp [obj_find_val, hm, hk]
      | cons a ms1' =>
          rw [List.cons_append, List.cons_eq_cons] at hms
          exact absurd hms.2.symm (by simp)
  | cons h m0 p0 ms hm hp hchain ih =>
      intro ms1 m ms2 p hms habs hk fuel hf
      cases ms1 with
      | nil =>
          simp only [List.nil_append, List.cons_eq_cons] at hms
          obtain ⟨rfl, rfl⟩ := hms
          obtain ⟨f, rfl⟩ : ∃ f, fuel = f + 1 := ⟨fuel - 1, by omega⟩
          simp [obj_find_val, hm, hk]
      | cons a ms1' =>
          rw [List.cons_append, List.cons_eq_cons] at hms
          obtain ⟨rfl, hms'⟩ := hms
          have hk0 : m0.get key = none := habs m0 (by simp)
          obtain ⟨f, rfl⟩ : ∃ f, fuel = f + 1 := ⟨fuel - 1, by omega⟩
          have ih' := ih ms1' m ms2 p hms' (fun m' hm' => habs m' (by simp [hm'])) hk f
            (by simp at hf; omega)
          simp [obj_find_val, hm, hk0, hp, ih']

/-- Claim C5: for an object whose prototype walk visits the maps `ms`
(an acyclic chain of `n` prototype links lists `n + 1` maps, ending at a
null/absent prototype), `obj_find_val` terminates given any fuel above the
chain length; if the key is absent from every map it performs exactly
`n + 1` key lookups and returns `Undefined`; otherwise it returns the value
at the first (nearest) map owning the key — first match wins — after
`(index of that map) + 1` lookups. -/
theorem c5_prototype_fallback :
    ∀ (ctx : RtCtx) (h : Nat) (ms : List PropMap) (key : String) (n : Nat),
      Chain ctx (.Object h) ms → ms.length = n + 1 →
      ((∀ m ∈ ms, m.get key = none) →
        ∀ fuel, n + 1 < fuel →
          obj_find_val ctx fuel (.Object h) key = some (.Undefined, n + 1)) ∧
      (∀ ms1 m ms2 p, ms = ms1 ++ m :: ms2 → (∀ m' ∈ ms1, m'.get key = none) →
        m.get key = some p → ∀ fuel, n + 1 < fuel →
          obj_find_val ctx fuel (.Object h) key = some (p.val, ms1.length + 1)) := by
  intro ctx h ms key n hc hlen
  constructor
  · intro habs fuel hf
    have hres := chain_absent ctx hc key habs fuel (by omega)
    rwa [hlen] at hres
  · intro ms1 m ms2 p hms habs hk fuel hf
    apply chain_found ctx hc key ms1 m ms2 p hms habs hk fuel
    have : ms1.length < ms.length := by rw [hms]; simp
    omega

/-- Claim C5, witness: on `ctxB` (object 0 with prototype object 1 owning
`"k"`), the absent key `"z"` takes 2 lookups and returns `Undefined`, and
`"k"` is found on the second chain member after 2 lookups. -/
theorem c5_witness :
    obj_find_val ctxB 3 (.Object 0) "z" = some (.Undefined, 2) ∧
    obj_find_val ctxB 3 (.Object 0) "k" = some (.Number (.fin 7), 2) := by
  have hchain : Chain ctxB (.Object 0)
      [[("__proto__", Property.new (.Object 1))], [("k", Property.new (.Number (.fin 7)))]] := by
    refine Chain.cons 0 _ (Property.new (.Object 1)) _ (by rfl) (by decide) ?_
    exact Chain.last 1 _ (by rfl) (by decide)
  constructor
  · exact (c5_prototype_fallback ctxB 0 _ "z" 1 hchain (by decide)).1 (by decide) 3 (by norm_num)
  · exact (c5_prototype_fallback ctxB 0 _ "k" 1 hchain (by decide)).2
      [[("__proto__", Property.new (.Object 1))]] [("k", Property.new (.Number (.fin 7)))] []
      (Property.new (.Number (.fin 7))) (by decide) (by decide) (by decide) 3 (by norm_num)

/-- Claim C10: `copy_object` returns every non-object value unchanged
without touching the allocator, and clones an object into a freshly
allocated handle (the appended index, which was not previously valid). -/
theorem c10_copy_object :
    (∀ oh v, v.is_object = false → copy_object oh v = some (v, oh)) ∧
    (∀ oh (h : Nat) info, oh[h]? = some info →
      copy_object oh (.Object h) = some (.Object oh.length, oh ++ [info]) ∧
      oh[oh.length]? = none) := by
  constructor
  · intro oh v h
    cases v <;> simp_all [Value2.is_object, copy_object]
  · intro oh h info hh
    exact ⟨by simp [copy_object, hh], by simp⟩

/-- Claim C10, witness: a number passes through `copy_object` untouched with
the heap unchanged; an object is cloned to the fresh handle 1. -/
theorem c10_witness :
    copy_object [] (.Number (.fin 3)) = some (.Number (.fin 3), []) ∧
    copy_object [⟨0, []⟩] (.Object 0) = some (.Object 1, [⟨0, []⟩, ⟨0, []⟩]) := by
  refine ⟨c10_copy_object.1 [] (.Number (.fin 3)) (by decide), ?_⟩
  exact (c10_copy_object.2 [⟨0, []⟩] 0 ⟨0, []⟩ (by decide)).1

end Rapidus
